import Mathlib

/-!
# geoloc: locations, distance, overlap and de-duplication

A shallow embedding of `location.go`, `utils.go` and `settings.go`.

Go's `float64` arithmetic is kept abstract: every function of the source is
written once, over an arbitrary carrier `F` equipped with the operations the
source uses (`FloatArith`).  Properties that do not depend on how numbers are
computed are proved for every such carrier.  Properties that do depend on it
are proved for one of two interpretations: the real numbers (`realArith`), in
which each operation is the exact mathematical one, and binary64 (`f64Arith`),
with NaN, the infinities, overflow and a rounding function of which only the
facts listed in `FloatModel` are used.

Go slices are lists; Go strings are `String` with `==` as equality.
-/

namespace Geoloc

/-! ## Arithmetic used by the source -/

/-- The `float64` operations that `location.go` and `utils.go` use:
conversion of an untyped integer constant, `math.Pi`, `+ - * /`,
`math.Sqrt`, `math.Cos`, `math.Pow` and the comparison `<=`. -/
class FloatArith (F : Type) where
  ofNat : Nat → F
  pi : F
  add : F → F → F
  sub : F → F → F
  mul : F → F → F
  div : F → F → F
  sqrt : F → F
  cos : F → F
  pow : F → F → F
  le : F → F → Bool

/-- The exact interpretation: real numbers, with `math.Pow` read as the real
power function. -/
noncomputable instance realArith : FloatArith ℝ where
  ofNat n := (n : ℝ)
  pi := Real.pi
  add x y := x + y
  sub x y := x - y
  mul x y := x * y
  div x y := x / y
  sqrt := Real.sqrt
  cos := Real.cos
  pow x y := Real.rpow x y
  le x y := decide (x ≤ y)

/-! ## Data model -/

/-- `type Location struct`: a named point, coordinates in degrees. -/
structure Location (F : Type) where
  City : String
  State : String
  Country : String
  Lat : F
  Lon : F

section Source

variable {F : Type} [FloatArith F]

open FloatArith

/-- `DEFAULT_MAX_RESP_LOCS`. -/
def DEFAULT_MAX_RESP_LOCS : Int := 10

/-- `func Rad(deg float64) float64`: `deg * math.Pi / 180`. -/
def Rad (deg : F) : F :=
  div (mul deg pi) (ofNat 180)

/-- `func (loc *Location) DistanceTo(loc2 *Location) float64`. -/
def DistanceTo (loc loc2 : Location F) : F :=
  let R : F := ofNat 6371
  let deltaLat := Rad (sub loc.Lat loc2.Lat)
  let deltaLon := Rad (sub loc.Lon loc2.Lon)
  let meanLat := Rad (div (add loc.Lat loc2.Lat) (ofNat 2))
  mul R (sqrt (add (pow deltaLat (ofNat 2)) (pow (mul (cos meanLat) deltaLon) (ofNat 2))))

/-- `func (loc *Location) Overlaps(loc2 *Location) bool`, with
`OVERLAPPING_D = 10`. -/
def Overlaps (loc loc2 : Location F) : Bool :=
  let OVERLAPPING_D : F := ofNat 10
  decide (loc.City = loc2.City) && le (DistanceTo loc loc2) OVERLAPPING_D

/-- The inner loop of `RemoveOverlappingLocations`: `for j := range locations`,
scanning the accepted entries from the front and leaving at the first one the
candidate overlaps.  The result is the final value of `unique`. -/
def scanUnique (m : Location F) : List (Location F) → Bool
  | [] => true
  | loc :: rest => if Overlaps m loc then false else scanUnique m rest

/-- The outer loop of `RemoveOverlappingLocations`: `for i := range matches`,
carrying the slice `locations`. -/
def removeLoop : List (Location F) → List (Location F) → List (Location F)
  | [], locations => locations
  | m :: rest, locations =>
    removeLoop rest (if scanUnique m locations then locations ++ [m] else locations)

/-- `func RemoveOverlappingLocations(matches []Location) []Location`; the
parameter `matches` is written `ms`, and `var locations []Location` starts
empty. -/
def RemoveOverlappingLocations (ms : List (Location F)) : List (Location F) :=
  removeLoop ms []

end Source

/-! ## The resolver, the display name and the settings store

The HTTP client, the JSON codec and the operating system are collaborators of
the source, not part of it.  Each is a parameter: a function from what the
source passes in to what the source gets back. -/

/-- Go `error` values that `FindLocation` can return: the package's own
`errLocationNotFound`, or a value `e : E` produced by the HTTP client or by the
JSON decoder.  `errLocationNotFound` is an unexported variable made by
`errors.New`, so no value made outside the package is equal to it. -/
inductive GoError (E : Type) where
  | errLocationNotFound : GoError E
  | external : E → GoError E
  deriving DecidableEq

/-- `func (loc *Location) GetName(includeState bool) string`; `len(loc.State)`
is the number of bytes of the string, and `fmt.Sprintf` with `%s` verbs puts the
strings in as they are. -/
def GetName {F : Type} (loc : Location F) (includeState : Bool) : String :=
  if includeState && decide (loc.State.utf8ByteSize > 0) then
    loc.City ++ ", " ++ loc.State ++ ", " ++ loc.Country
  else
    loc.City ++ ", " ++ loc.Country

section Resolver

variable {F : Type} [FloatArith F] {E Body : Type}

/-- The first statement of `FindLocation`: the value of `maxRespLocs` after
`if maxRespLocs <= 0 { maxRespLocs = DEFAULT_MAX_RESP_LOCS }`. -/
def effectiveMaxRespLocs (maxRespLocs : Int) : Int :=
  if maxRespLocs ≤ 0 then DEFAULT_MAX_RESP_LOCS else maxRespLocs

/-- The argument of `client.Get` in `FindLocation`:
`fmt.Sprintf(OPEN_WEATHER_URL, locName, maxRespLocs, keyOW)` with the template
`https://api.openweathermap.org/geo/1.0/direct?q=%s&limit=%d&appid=%s`, taken
after the substitution of the default; `%d` prints the integer in decimal. -/
def requestURL (keyOW locName : String) (maxRespLocs : Int) : String :=
  "https://api.openweathermap.org/geo/1.0/direct?q=" ++ locName ++ "&limit=" ++
    toString (effectiveMaxRespLocs maxRespLocs) ++ "&appid=" ++ keyOW

/-- The part of `FindLocation` after a successful `client.Get`: `decode` stands
for `json.NewDecoder(resp.Body).Decode(&matches)` and gives the value left in
`matches` together with the returned error.  A `nil` slice is the empty
list. -/
def decodeAndFilter (decode : Body → List (Location F) × Option E) (body : Body) :
    List (Location F) × Option (GoError E) :=
  let (ms, err) := decode body
  match err with
  | some e => ([], some (GoError.external e))
  | none =>
    if ms.length = 0 then
      ([], some GoError.errLocationNotFound)
    else if ms.length > 1 then
      (RemoveOverlappingLocations ms, none)
    else
      (ms, none)

/-- `func FindLocation(client *http.Client, keyOW, locName string,
maxRespLocs int) ([]Location, error)`.  `client` stands for `client.Get`: the
response body, or the error of the request. -/
def FindLocation (client : String → Except E Body)
    (decode : Body → List (Location F) × Option E)
    (keyOW locName : String) (maxRespLocs : Int) :
    List (Location F) × Option (GoError E) :=
  match client (requestURL keyOW locName maxRespLocs) with
  | .error err => ([], some (GoError.external err))
  | .ok body => decodeAndFilter decode body

end Resolver

/-- `SETTINGS_DIR`. -/
def SETTINGS_DIR : String := "settings"

/-- `SETTINGS_FILE`. -/
def SETTINGS_FILE : String := SETTINGS_DIR ++ "/uv.json"

/-- `type Settings struct`; the pointer `DefaultLocation` is an option. -/
structure Settings (F : Type) where
  OpenWeatherKey : String
  OpenUVKey : String
  DefaultLocation : Option (Location F)

/-- What `settings.go` calls in the packages `os`, `errors` and
`encoding/json`, over a state `W` of the file system, error values `E` and
open files `H`.  Every call gives what Go returns (the `FileInfo` of `Stat`
left out, the source discards it) and, where it can change the file system,
the state after it. -/
structure System (F W E H : Type) where
  /-- `os.ReadFile(name)`. -/
  ReadFile : String → W → Except E String
  /-- `errors.Is(err, os.ErrNotExist)` for a non-nil `err`. -/
  IsErrNotExist : E → Bool
  /-- `os.IsNotExist(err)` for a non-nil `err`. -/
  IsNotExist : E → Bool
  /-- `os.Stat(name)`, the error only. -/
  Stat : String → W → Option E
  /-- `os.Mkdir(name, perm)`. -/
  Mkdir : String → Nat → W → Option E × W
  /-- `json.MarshalIndent(s, "", "    ")`, the two strings passed in order. -/
  MarshalIndent : Settings F → String → String → Except E String
  /-- `json.Unmarshal(stream, &s)`. -/
  Unmarshal : String → Except E (Settings F)
  /-- `os.O_CREATE|os.O_TRUNC|os.O_WRONLY`. -/
  createTruncWrite : Nat
  /-- `os.OpenFile(name, flag, perm)`. -/
  OpenFile : String → Nat → Nat → W → Except E H × W
  /-- `f.Write(stream)`: the number of bytes written and the error. -/
  Write : H → String → W → (Nat × Option E) × W
  /-- `f.Close()`. -/
  Close : H → W → Option E × W

section SettingsStore

variable {F W E H : Type}

/-- `func SaveSettings(s *Settings) error`, with the state of the file system
after the call.  The results of `f.Write(stream)` and of the deferred
`f.Close()` are not looked at by the source. -/
def SaveSettings (sys : System F W E H) (s : Option (Settings F)) (w : W) : Option E × W :=
  let s : Settings F :=
    match s with
    | none => ⟨"", "", none⟩
    | some s => s
  let missing : Bool :=
    match sys.Stat SETTINGS_DIR w with
    | some err => sys.IsNotExist err
    | none => false
  let made : Option E × W := if missing then sys.Mkdir SETTINGS_DIR 0o644 w else (none, w)
  match made with
  | (some err, w1) => (some err, w1)
  | (none, w1) =>
    match sys.MarshalIndent s "" "    " with
    | .error err => (some err, w1)
    | .ok stream =>
      match sys.OpenFile SETTINGS_FILE sys.createTruncWrite 0o644 w1 with
      | (.error err, w2) => (some err, w2)
      | (.ok f, w2) =>
        let w3 := (sys.Write f stream w2).2
        let w4 := (sys.Close f w3).2
        (none, w4)

/-- `func LoadSettings() (*Settings, error)`, with the state of the file system
after the call. -/
def LoadSettings (sys : System F W E H) (w : W) : Option (Settings F) × Option E × W :=
  match sys.ReadFile SETTINGS_FILE w with
  | .error err =>
    if sys.IsErrNotExist err then
      let saved := SaveSettings sys none w
      (none, saved.1, saved.2)
    else
      (none, some err, w)
  | .ok stream =>
    match sys.Unmarshal stream with
    | .error err => (none, some err, w)
    | .ok s => (some s, none, w)

end SettingsStore

/-! ## A binary64 interpretation with overflow, infinities and NaN -/

/-- Values of a Go `float64`: NaN, the two infinities, and the finite values,
each given by the real number it stands for (the two zeros are one value). -/
inductive Float64 where
  | nan : Float64
  | posInf : Float64
  | negInf : Float64
  | fin : ℝ → Float64

/-- What a binary64 arithmetic is made of, and the facts about it that the
proofs use.  `rnd` rounds an exact result to a representable value (exponent
unbounded), `maxFinite` is the largest finite value, `piF` is `math.Pi`, `cosF`
is `math.Cos` on a finite argument, `sq` is `math.Pow(x, 2)` on a finite `x`
before the overflow test, and `powOther` is `math.Pow` with an exponent other
than 2, which the source never uses.  IEEE 754 round-to-nearest is odd and
monotone and leaves zero and the powers of two as they are; `math.Pow(x, 2)`
is even in `x`, not negative, zero at zero, and at most `4 ^ k` when
`|x| <= 2 ^ k`. -/
structure FloatModel where
  rnd : ℝ → ℝ
  maxFinite : ℝ
  piF : ℝ
  cosF : ℝ → ℝ
  sq : ℝ → ℝ
  powOther : Float64 → Float64 → Float64
  rnd_zero : rnd 0 = 0
  rnd_neg : ∀ x, rnd (-x) = -rnd x
  rnd_mono : ∀ x y, x ≤ y → rnd x ≤ rnd y
  rnd_two_pow : ∀ k : ℕ, k ≤ 1023 → rnd (2 ^ k) = 2 ^ k
  two_pow_le_maxFinite : (2 : ℝ) ^ 1023 ≤ maxFinite
  piF_nonneg : 0 ≤ piF
  piF_le : piF ≤ 4
  cosF_abs_le : ∀ x, |cosF x| ≤ 2
  sq_zero : sq 0 = 0
  sq_neg : ∀ x, sq (-x) = sq x
  sq_nonneg : ∀ x, 0 ≤ sq x
  sq_le : ∀ (k : ℕ) (x : ℝ), k ≤ 500 → |x| ≤ 2 ^ k → sq x ≤ 2 ^ (2 * k)

/-- The carrier of the arithmetic given by `M`. -/
def F64 (_ : FloatModel) : Type := Float64

namespace Float64

/-- The overflow test: a result beyond the largest finite value is an
infinity. -/
noncomputable def clamp (M : FloatModel) (r : ℝ) : Float64 :=
  if M.maxFinite < r then posInf else if r < -M.maxFinite then negInf else fin r

/-- An exact result, rounded and tested for overflow. -/
noncomputable def round (M : FloatModel) (r : ℝ) : Float64 :=
  clamp M (M.rnd r)

/-- Unary minus. -/
def neg : Float64 → Float64
  | nan => nan
  | posInf => negInf
  | negInf => posInf
  | fin x => fin (-x)

/-- `x + y`. -/
noncomputable def add (M : FloatModel) : Float64 → Float64 → Float64
  | nan, _ => nan
  | _, nan => nan
  | posInf, negInf => nan
  | negInf, posInf => nan
  | posInf, _ => posInf
  | _, posInf => posInf
  | negInf, _ => negInf
  | _, negInf => negInf
  | fin x, fin y => round M (x + y)

/-- `x - y`, which is `x + (-y)`. -/
noncomputable def sub (M : FloatModel) (x y : Float64) : Float64 :=
  add M x (neg y)

/-- An infinity of sign `positive` times the finite `y`. -/
noncomputable def infTimes (positive : Bool) (y : ℝ) : Float64 :=
  if y = 0 then nan
  else if (decide (0 < y)) = positive then posInf else negInf

/-- `x * y`. -/
noncomputable def mul (M : FloatModel) : Float64 → Float64 → Float64
  | nan, _ => nan
  | _, nan => nan
  | posInf, posInf => posInf
  | posInf, negInf => negInf
  | negInf, posInf => negInf
  | negInf, negInf => posInf
  | posInf, fin y => infTimes true y
  | negInf, fin y => infTimes false y
  | fin x, posInf => infTimes true x
  | fin x, negInf => infTimes false x
  | fin x, fin y => round M (x * y)

/-- `x / y`; a finite value divided by zero is NaN for `0 / 0` and an infinity
otherwise, an infinity divided by a finite value keeps or changes its sign with
the sign of the divisor (zero counted as positive). -/
noncomputable def div (M : FloatModel) : Float64 → Float64 → Float64
  | nan, _ => nan
  | _, nan => nan
  | posInf, posInf => nan
  | posInf, negInf => nan
  | negInf, posInf => nan
  | negInf, negInf => nan
  | posInf, fin y => if 0 ≤ y then posInf else negInf
  | negInf, fin y => if 0 ≤ y then negInf else posInf
  | fin _, posInf => fin 0
  | fin _, negInf => fin 0
  | fin x, fin y =>
    if y = 0 then (if x = 0 then nan else if 0 < x then posInf else negInf)
    else round M (x / y)

/-- `math.Sqrt`. -/
noncomputable def sqrt (M : FloatModel) : Float64 → Float64
  | nan => nan
  | posInf => posInf
  | negInf => nan
  | fin x => if x < 0 then nan else round M (Real.sqrt x)

/-- `math.Cos`: NaN at NaN and at the infinities. -/
def cos (M : FloatModel) : Float64 → Float64
  | fin x => fin (M.cosF x)
  | _ => nan

/-- `math.Pow(x, 2)`: NaN at NaN, `+Inf` at the infinities. -/
noncomputable def square (M : FloatModel) : Float64 → Float64
  | nan => nan
  | posInf => posInf
  | negInf => posInf
  | fin x => clamp M (M.sq x)

/-- `math.Pow`. -/
noncomputable def pow (M : FloatModel) (x y : Float64) : Float64 :=
  match y with
  | fin e => if e = 2 then square M x else M.powOther x y
  | _ => M.powOther x y

/-- `x <= y`: false when either side is NaN. -/
noncomputable def le : Float64 → Float64 → Bool
  | nan, _ => false
  | _, nan => false
  | negInf, _ => true
  | _, posInf => true
  | posInf, _ => false
  | _, negInf => false
  | fin x, fin y => decide (x ≤ y)

end Float64

/-- The arithmetic given by `M`; the integer constants of the source (2, 10,
180, 6371) are representable as they are. -/
noncomputable instance f64Arith (M : FloatModel) : FloatArith (F64 M) where
  ofNat n := Float64.fin (n : ℝ)
  pi := Float64.fin M.piF
  add := Float64.add M
  sub := Float64.sub M
  mul := Float64.mul M
  div := Float64.div M
  sqrt := Float64.sqrt M
  cos := Float64.cos M
  pow := Float64.pow M
  le := Float64.le

section SpecWording

variable {F : Type} [FloatArith F]

/-- The reference fold of the specification (section 4.3): start from an empty
output; for each candidate in input order, discard it if it overlaps any
already-accepted entry, otherwise append it. -/
def specRemoveOverlapping (candidates : List (Location F)) : List (Location F) :=
  candidates.foldl
    (fun out c => if out.any (fun e => Overlaps c e) then out else out ++ [c]) []

end SpecWording

/-- The specification's `toRadians`: `degrees * π / 180`. -/
noncomputable def specToRadians (degrees : ℝ) : ℝ :=
  degrees * Real.pi / 180

/-- The specification's `distanceTo` (section 4.2), over the reals. -/
noncomputable def specDistanceTo (a b : Location ℝ) : ℝ :=
  let dLat := specToRadians (a.Lat - b.Lat)
  let dLon := specToRadians (a.Lon - b.Lon)
  let meanLat := specToRadians ((a.Lat + b.Lat) / 2)
  6371 * Real.sqrt (dLat ^ 2 + (Real.cos meanLat * dLon) ^ 2)

/-! ## Concrete locations used as inputs -/

/-- Springfield, first entry of a cluster of near-identical results. -/
noncomputable def springfieldA : Location ℝ := ⟨"Springfield", "Illinois", "US", 39.80, -89.64⟩

/-- Springfield again, 0.01 degrees of latitude further north. -/
noncomputable def springfieldB : Location ℝ := ⟨"Springfield", "Illinois", "US", 39.81, -89.64⟩

/-- Springfield again, 0.02 degrees of latitude north of the first entry. -/
noncomputable def springfieldC : Location ℝ := ⟨"Springfield", "Illinois", "US", 39.82, -89.64⟩

/-- Portland, a result with a different city name. -/
noncomputable def portland : Location ℝ := ⟨"Portland", "Oregon", "US", 45.52, -122.68⟩

/-- A location named `city` on the meridian of longitude 0, at latitude `lat`
degrees. -/
noncomputable def onMeridian (city : String) (lat : ℝ) : Location ℝ := ⟨city, "", "", lat, 0⟩

/-- The latitude, in degrees, whose arc from the equator is exactly 10 km. -/
noncomputable def tenKmInDegrees : ℝ := 1800 / (6371 * Real.pi)

/-- The specification's formula with the cosine taken at the latitude `lat`
(in degrees) instead of the mean latitude. -/
noncomputable def specDistanceWithCosAt (lat : ℝ) (a b : Location ℝ) : ℝ :=
  let dLat := specToRadians (a.Lat - b.Lat)
  let dLon := specToRadians (a.Lon - b.Lon)
  6371 * Real.sqrt (dLat ^ 2 + (Real.cos (specToRadians lat) * dLon) ^ 2)

/-- North pole, longitude 1. -/
noncomputable def northPole : Location ℝ := ⟨"North", "", "", 90, 1⟩

/-- South pole, longitude 0. -/
noncomputable def southPole : Location ℝ := ⟨"South", "", "", -90, 0⟩

/-- Same name, longitude 0, latitude 0. -/
noncomputable def meridianA : Location ℝ := onMeridian "Springfield" 0

/-- Same name, longitude 0, latitude 0.07 degrees (about 7.8 km from
`meridianA`). -/
noncomputable def meridianB : Location ℝ := onMeridian "Springfield" 0.07

/-- Same name, longitude 0, latitude 0.14 degrees (about 7.8 km from
`meridianB`, about 15.6 km from `meridianA`). -/
noncomputable def meridianC : Location ℝ := onMeridian "Springfield" 0.14

/-! ## Concrete collaborators used as inputs -/

/-- An HTTP client whose every request succeeds with the body `body`. -/
def respondingClient (body : String) : String → Except String String :=
  fun _ => Except.ok body

/-- An HTTP client whose every request fails with the error `e`. -/
def failingClient (e : String) : String → Except String String :=
  fun _ => Except.error e

/-- An HTTP client that answers the one URL `url` with the body `body` and
fails on every other URL. -/
def clientAt (url body : String) : String → Except String String :=
  fun u => if u = url then Except.ok body else Except.error "unexpected URL"

/-- A decoder that succeeds on every body and leaves `ms` in `matches`. -/
def decodesTo {F : Type} (ms : List (Location F)) : String → List (Location F) × Option String :=
  fun _ => (ms, none)

/-- A decoder that fails on every body with the error `e`, leaving `ms` in
`matches`. -/
def decodeFails {F : Type} (ms : List (Location F)) (e : String) :
    String → List (Location F) × Option String :=
  fun _ => (ms, some e)

/-- Errors of the small file system `diskSystem`. -/
inductive DiskError where
  | notExist : DiskError
  | permission : DiskError
  | noSpace : DiskError
  deriving DecidableEq

/-- State of the small file system `diskSystem`: whether the settings directory
exists, the content of the settings file if it exists, whether the device has
no room left, and whether reading is refused. -/
structure Disk where
  hasDir : Bool
  file : Option String
  full : Bool
  unreadable : Bool
  deriving DecidableEq

/-- A small file system holding at most the settings directory and the settings
file.  Opening the file creates or truncates it and needs the directory;
writing fails when the device is full.  The text written for a record is a
stand-in for its JSON text. -/
def diskSystem : System ℝ Disk DiskError Unit where
  ReadFile _ w :=
    if w.unreadable then Except.error DiskError.permission
    else
      match w.file with
      | some content => Except.ok content
      | none => Except.error DiskError.notExist
  IsErrNotExist e := decide (e = DiskError.notExist)
  IsNotExist e := decide (e = DiskError.notExist)
  Stat _ w := if w.hasDir then none else some DiskError.notExist
  Mkdir _ _ w := (none, ⟨true, w.file, w.full, w.unreadable⟩)
  MarshalIndent s _ _ :=
    Except.ok ("open_weather_key=" ++ s.OpenWeatherKey ++ " open_uv_key=" ++ s.OpenUVKey ++
      " default_location=" ++ (if s.DefaultLocation.isSome then "set" else "null"))
  Unmarshal _ := Except.error DiskError.notExist
  createTruncWrite := 0x241
  OpenFile _ _ _ w :=
    if w.hasDir then (Except.ok (), ⟨w.hasDir, some "", w.full, w.unreadable⟩)
    else (Except.error DiskError.notExist, w)
  Write _ stream w :=
    if w.full then ((0, some DiskError.noSpace), w)
    else ((stream.utf8ByteSize, none), ⟨w.hasDir, some stream, w.full, w.unreadable⟩)
  Close _ w := (none, w)

/-- The settings directory exists, the settings file does not, and the device
has no room left. -/
def fullDisk : Disk := ⟨true, none, true, false⟩

/-- Nothing exists yet and there is room: the state of a first run. -/
def freshDisk : Disk := ⟨false, none, false, false⟩

/-- Reading is refused. -/
def lockedDisk : Disk := ⟨true, some "text", false, true⟩

/-! ## Auxiliary facts about the two loops -/

section Loops

variable {F : Type} [FloatArith F]

theorem scanUnique_eq_not_any (m : Location F) (ls : List (Location F)) :
    scanUnique m ls = !ls.any (fun e => Overlaps m e) := by
  induction ls with
  | nil => rfl
  | cons l rest ih =>
    cases h : Overlaps m l <;> simp [scanUnique, h, ih]

theorem scanUnique_eq_false_iff (m : Location F) (ls : List (Location F)) :
    scanUnique m ls = false ↔ ∃ e ∈ ls, Overlaps m e = true := by
  simp [scanUnique_eq_not_any]

theorem scanUnique_eq_true_iff (m : Location F) (ls : List (Location F)) :
    scanUnique m ls = true ↔ ∀ e ∈ ls, Overlaps m e = false := by
  simp [scanUnique_eq_not_any]

theorem removeLoop_append (xs ys acc : List (Location F)) :
    removeLoop (xs ++ ys) acc = removeLoop ys (removeLoop xs acc) := by
  induction xs generalizing acc with
  | nil => rfl
  | cons x xs ih => simp [removeLoop, ih]

theorem removeLoop_eq_foldl (xs acc : List (Location F)) :
    removeLoop xs acc =
      xs.foldl (fun out c => if out.any (fun e => Overlaps c e) then out else out ++ [c])
        acc := by
  induction xs generalizing acc with
  | nil => rfl
  | cons x xs ih =>
    simp only [removeLoop, List.foldl_cons, ih, scanUnique_eq_not_any]
    cases acc.any (fun e => Overlaps x e) <;> simp

/-- The loop only ever appends to `locations`, and what it appends is a
sublist of the candidates it visited. -/
theorem removeLoop_extends (xs acc : List (Location F)) :
    ∃ t, removeLoop xs acc = acc ++ t ∧ List.Sublist t xs := by
  induction xs generalizing acc with
  | nil => exact ⟨[], by simp [removeLoop], List.Sublist.refl _⟩
  | cons x xs ih =>
    simp only [removeLoop]
    cases h : scanUnique x acc
    · obtain ⟨t, ht, hs⟩ := ih acc
      exact ⟨t, by simpa using ht, hs.cons x⟩
    · obtain ⟨t, ht, hs⟩ := ih (acc ++ [x])
      exact ⟨x :: t, by simpa using ht, hs.cons₂ x⟩

/-- The invariant of the outer loop: no entry of `locations` overlaps an entry
that stands before it. -/
theorem removeLoop_pairwise (xs acc : List (Location F))
    (hacc : List.Pairwise (fun e l => Overlaps l e = false) acc) :
    List.Pairwise (fun e l => Overlaps l e = false) (removeLoop xs acc) := by
  induction xs generalizing acc with
  | nil => simpa [removeLoop] using hacc
  | cons x xs ih =>
    simp only [removeLoop]
    cases h : scanUnique x acc
    · simpa using ih acc hacc
    · apply ih
      rw [scanUnique_eq_true_iff] at h
      simp only [if_true, List.pairwise_append, List.pairwise_cons, List.mem_singleton]
      refine ⟨hacc, by simp, ?_⟩
      intro a ha b hb
      subst hb
      exact h a ha

/-- A run in which every candidate is accepted returns the candidates
appended to `locations`. -/
theorem removeLoop_all_accepted (xs acc : List (Location F))
    (h : List.Pairwise (fun e l => Overlaps l e = false) (acc ++ xs)) :
    removeLoop xs acc = acc ++ xs := by
  induction xs generalizing acc with
  | nil => simp [removeLoop]
  | cons x xs ih =>
    have hx : scanUnique x acc = true := by
      rw [scanUnique_eq_true_iff]
      intro e he
      rw [List.pairwise_append] at h
      exact h.2.2 e he x (List.mem_cons_self _ _)
    simp only [removeLoop, hx, if_true]
    rw [ih (acc ++ [x]) (by simpa using h)]
    simp

/-- A run in which every candidate overlaps an accepted entry leaves
`locations` as it was. -/
theorem removeLoop_all_discarded (xs acc : List (Location F))
    (h : ∀ x ∈ xs, ∃ e ∈ acc, Overlaps x e = true) :
    removeLoop xs acc = acc := by
  induction xs with
  | nil => rfl
  | cons x xs ih =>
    have hx : scanUnique x acc = false :=
      (scanUnique_eq_false_iff x acc).2 (h x (List.mem_cons_self _ _))
    simp only [removeLoop, hx]
    exact ih (fun y hy => h y (List.mem_cons_of_mem _ hy))

theorem overlaps_eq_false_of_city_ne (a b : Location F) (h : a.City ≠ b.City) :
    Overlaps a b = false := by
  simp [Overlaps, h]

end Loops

/-! ## Auxiliary facts about the real-number interpretation -/

section RealFacts

theorem distanceTo_real_eq_spec (a b : Location ℝ) :
    DistanceTo a b = specDistanceTo a b := by
  simp only [DistanceTo, specDistanceTo, Rad, specToRadians, FloatArith.mul, FloatArith.div,
    FloatArith.add, FloatArith.sub, FloatArith.sqrt, FloatArith.cos, FloatArith.pow,
    FloatArith.ofNat, FloatArith.pi]
  have h2 : ∀ x : ℝ, Real.rpow x ((2 : ℕ) : ℝ) = x ^ 2 := fun x => Real.rpow_natCast x 2
  rw [h2, h2]
  norm_num

theorem overlaps_real_iff (a b : Location ℝ) :
    Overlaps a b = true ↔ a.City = b.City ∧ DistanceTo a b ≤ 10 := by
  simp [Overlaps, FloatArith.le, FloatArith.ofNat]

/-- On one meridian the distance is the arc length of the latitude
difference. -/
theorem distanceTo_real_same_lon (a b : Location ℝ) (h : a.Lon = b.Lon) :
    DistanceTo a b = 6371 * (|a.Lat - b.Lat| * Real.pi / 180) := by
  rw [distanceTo_real_eq_spec]
  simp only [specDistanceTo, specToRadians, h, sub_self, zero_mul, zero_div, mul_zero]
  have h0 : ((0 : ℝ)) ^ 2 = 0 := by norm_num
  rw [h0, add_zero, Real.sqrt_sq_eq_abs, abs_div, abs_mul, abs_of_pos Real.pi_pos]
  norm_num

/-- Same name, same meridian, latitudes at most 0.0899 degrees apart: the two
locations overlap. -/
theorem overlaps_real_of_same_lon_near (a b : Location ℝ) (hc : a.City = b.City)
    (hl : a.Lon = b.Lon) (hd : |a.Lat - b.Lat| ≤ 0.0899) : Overlaps a b = true := by
  rw [overlaps_real_iff, distanceTo_real_same_lon a b hl]
  refine ⟨hc, ?_⟩
  have hpi := Real.pi_lt_d4
  have h0 : 0 ≤ |a.Lat - b.Lat| := abs_nonneg _
  nlinarith [Real.pi_pos]

/-- Same meridian, latitudes at least 0.09 degrees apart: the two locations do
not overlap. -/
theorem overlaps_real_of_same_lon_far (a b : Location ℝ)
    (hl : a.Lon = b.Lon) (hd : 0.09 ≤ |a.Lat - b.Lat|) : Overlaps a b = false := by
  rw [Bool.eq_false_iff]
  intro h
  rw [overlaps_real_iff, distanceTo_real_same_lon a b hl] at h
  have hpi := Real.pi_gt_d2
  nlinarith [h.2]

theorem overlaps_springfieldB_A : Overlaps springfieldB springfieldA = true := by
  apply overlaps_real_of_same_lon_near <;> norm_num [springfieldA, springfieldB, abs_le]

theorem overlaps_springfieldC_A : Overlaps springfieldC springfieldA = true := by
  apply overlaps_real_of_same_lon_near <;> norm_num [springfieldA, springfieldC, abs_le]

theorem overlaps_springfieldC_B : Overlaps springfieldC springfieldB = true := by
  apply overlaps_real_of_same_lon_near <;> norm_num [springfieldB, springfieldC, abs_le]

theorem overlaps_portland_springfieldA : Overlaps portland springfieldA = false :=
  overlaps_eq_false_of_city_ne _ _ (by decide)

theorem overlaps_springfieldB_portland : Overlaps springfieldB portland = false :=
  overlaps_eq_false_of_city_ne _ _ (by decide)

theorem overlaps_springfieldC_portland : Overlaps springfieldC portland = false :=
  overlaps_eq_false_of_city_ne _ _ (by decide)

end RealFacts

/-! ## Auxiliary facts about the binary64 interpretation -/

section Float64Facts

variable (M : FloatModel)

open Float64

theorem two_pow_le_maxFinite (k : ℕ) (hk : k ≤ 1023) : (2 : ℝ) ^ k ≤ M.maxFinite :=
  le_trans (pow_le_pow_right₀ (by norm_num) hk) M.two_pow_le_maxFinite

end Float64Facts

section Float64Ops

variable (M : FloatModel)

open Float64

end Float64Ops

section Float64Distance

variable (M : FloatModel)

open Float64

end Float64Distance

section Float64Symmetry

variable (M : FloatModel)

open Float64

end Float64Symmetry

/-! ## The de-duplicator -/

section Deduplicator

/-- C1. `RemoveOverlappingLocations` equals the reference fold of the
specification.  Step by step: after a run over `pre`, the next candidate `c` is
discarded exactly when it overlaps some entry of the output built so far, and
is appended to the end of that output otherwise.  And a discarded candidate
(one whose visit leaves the output unchanged) overlaps an entry that occurs
before it in the input and is kept in the final output. -/
theorem C1_removeOverlapping_is_reference_fold {F : Type} [FloatArith F] :
    (∀ xs : List (Location F), RemoveOverlappingLocations xs = specRemoveOverlapping xs) ∧
    (∀ (pre : List (Location F)) (c : Location F),
      RemoveOverlappingLocations (pre ++ [c]) =
        if (RemoveOverlappingLocations pre).any (fun e => Overlaps c e)
        then RemoveOverlappingLocations pre
        else RemoveOverlappingLocations pre ++ [c]) ∧
    (∀ (pre post : List (Location F)) (c : Location F),
      RemoveOverlappingLocations (pre ++ [c]) = RemoveOverlappingLocations pre →
        ∃ e, e ∈ pre ∧ e ∈ RemoveOverlappingLocations (pre ++ c :: post) ∧
          Overlaps c e = true) := by
  have hstep : ∀ (pre : List (Location F)) (c : Location F),
      RemoveOverlappingLocations (pre ++ [c]) =
        if (RemoveOverlappingLocations pre).any (fun e => Overlaps c e)
        then RemoveOverlappingLocations pre
        else RemoveOverlappingLocations pre ++ [c] := by
    intro pre c
    simp only [RemoveOverlappingLocations, removeLoop_append, removeLoop,
      scanUnique_eq_not_any]
    cases (removeLoop pre []).any (fun e => Overlaps c e) <;> simp
  refine ⟨fun xs => removeLoop_eq_foldl xs [], hstep, ?_⟩
  intro pre post c hdisc
  rw [hstep] at hdisc
  cases hany : (RemoveOverlappingLocations pre).any (fun e => Overlaps c e)
  · rw [hany] at hdisc
    have := congrArg List.length hdisc
    simp at this
  · obtain ⟨e, he, hov⟩ := List.any_eq_true.1 hany
    obtain ⟨t, ht, hsub⟩ := removeLoop_extends pre ([] : List (Location F))
    obtain ⟨u, hu, -⟩ := removeLoop_extends (c :: post) (RemoveOverlappingLocations pre)
    refine ⟨e, ?_, ?_, hov⟩
    · have he2 : e ∈ t := by
        simpa [RemoveOverlappingLocations, ht] using he
      exact hsub.subset he2
    · simp only [RemoveOverlappingLocations, removeLoop_append] at hu ⊢
      rw [hu]
      exact List.mem_append_left _ he

/-- C1 at a concrete input: in `[springfieldA, springfieldB, portland]` the
second entry is discarded, and it overlaps the first, which is kept. -/
theorem C1_removeOverlapping_is_reference_fold_witness :
    RemoveOverlappingLocations ([springfieldA] ++ [springfieldB]) =
        RemoveOverlappingLocations [springfieldA] ∧
      ∃ e, e ∈ [springfieldA] ∧
        e ∈ RemoveOverlappingLocations ([springfieldA] ++ springfieldB :: [portland]) ∧
        Overlaps springfieldB e = true :=
  have h : RemoveOverlappingLocations ([springfieldA] ++ [springfieldB]) =
      RemoveOverlappingLocations [springfieldA] := by
    simp [RemoveOverlappingLocations, removeLoop, scanUnique, overlaps_springfieldB_A]
  ⟨h, C1_removeOverlapping_is_reference_fold.2.2 [springfieldA] [portland] springfieldB h⟩

/-- C2. The output of `RemoveOverlappingLocations` contains no overlapping
pair: for positions `i < j` of the output, `output[j].Overlaps(output[i])` is
false. -/
theorem C2_output_has_no_overlapping_pair {F : Type} [FloatArith F]
    (xs : List (Location F)) (i j : Nat) (a b : Location F) (hij : i < j)
    (hi : (RemoveOverlappingLocations xs)[i]? = some a)
    (hj : (RemoveOverlappingLocations xs)[j]? = some b) :
    Overlaps b a = false := by
  have hp := removeLoop_pairwise xs ([] : List (Location F)) List.Pairwise.nil
  rw [List.pairwise_iff_getElem] at hp
  obtain ⟨hi1, hi2⟩ := List.getElem?_eq_some.1 hi
  obtain ⟨hj1, hj2⟩ := List.getElem?_eq_some.1 hj
  have := hp i j hi1 hj1 hij
  simp only [RemoveOverlappingLocations] at hi2 hj2
  rw [hi2, hj2] at this
  exact this

/-- C2 at a concrete input: the output for
`[springfieldA, springfieldB, portland]` holds `springfieldA` at position 0 and
`portland` at position 1, and `portland` does not overlap `springfieldA`. -/
theorem C2_output_has_no_overlapping_pair_witness :
    (RemoveOverlappingLocations [springfieldA, springfieldB, portland])[0]? =
        some springfieldA ∧
      (RemoveOverlappingLocations [springfieldA, springfieldB, portland])[1]? =
        some portland ∧
      Overlaps portland springfieldA = false :=
  have h : RemoveOverlappingLocations [springfieldA, springfieldB, portland] =
      [springfieldA, portland] := by
    simp [RemoveOverlappingLocations, removeLoop, scanUnique, overlaps_springfieldB_A,
      overlaps_portland_springfieldA]
  have h0 : (RemoveOverlappingLocations [springfieldA, springfieldB, portland])[0]? =
      some springfieldA := by rw [h]; rfl
  have h1 : (RemoveOverlappingLocations [springfieldA, springfieldB, portland])[1]? =
      some portland := by rw [h]; rfl
  ⟨h0, h1, C2_output_has_no_overlapping_pair [springfieldA, springfieldB, portland] 0 1
    springfieldA portland (by decide) h0 h1⟩

/-- C3. The output of `RemoveOverlappingLocations` is a subsequence of the
input (only entries of the input, unchanged, in the same relative order), and
it is never longer than the input. -/
theorem C3_output_is_subsequence_of_input {F : Type} [FloatArith F]
    (xs : List (Location F)) :
    List.Sublist (RemoveOverlappingLocations xs) xs ∧
      (RemoveOverlappingLocations xs).length ≤ xs.length := by
  obtain ⟨t, ht, hsub⟩ := removeLoop_extends xs ([] : List (Location F))
  have h : List.Sublist (RemoveOverlappingLocations xs) xs := by
    simpa [RemoveOverlappingLocations, ht] using hsub
  exact ⟨h, h.length_le⟩

/-- C4. On the empty input the output is empty; and on an input in which no
entry overlaps an entry that precedes it, the output equals the input. -/
theorem C4_input_without_overlaps_is_returned {F : Type} [FloatArith F] :
    RemoveOverlappingLocations ([] : List (Location F)) = [] ∧
    ∀ xs : List (Location F),
      List.Pairwise (fun earlier later => Overlaps later earlier = false) xs →
        RemoveOverlappingLocations xs = xs := by
  refine ⟨rfl, fun xs h => ?_⟩
  simpa [RemoveOverlappingLocations] using removeLoop_all_accepted xs [] (by simpa using h)

/-- C4 at a concrete input: `[springfieldA, portland]` has no overlap and is
returned as it is. -/
theorem C4_input_without_overlaps_is_returned_witness :
    List.Pairwise (fun earlier later => Overlaps later earlier = false)
        [springfieldA, portland] ∧
      RemoveOverlappingLocations [springfieldA, portland] = [springfieldA, portland] :=
  have h : List.Pairwise (fun earlier later => Overlaps later earlier = false)
      [springfieldA, portland] := by
    simp [overlaps_portland_springfieldA]
  ⟨h, C4_input_without_overlaps_is_returned.2 [springfieldA, portland] h⟩

/-- C5. A cluster `c :: cs` of entries that share one city name and are
pairwise at most 10 km apart (each entry's `DistanceTo` every entry before it
is `<= 10`), with one entry `d` of a different city name put in at any
position `k`: the output has exactly two entries, the first entry of the
cluster and `d`, in the order in which they first occur in the input. -/
theorem C5_cluster_and_distinct_entry_give_two {F : Type} [FloatArith F]
    (c : Location F) (cs : List (Location F)) (d : Location F) (k : Nat)
    (hcity : ∀ a ∈ cs, a.City = c.City) (hd : d.City ≠ c.City)
    (hnear : List.Pairwise
      (fun earlier later =>
        FloatArith.le (DistanceTo later earlier) (FloatArith.ofNat 10) = true) (c :: cs)) :
    RemoveOverlappingLocations ((c :: cs).take k ++ d :: (c :: cs).drop k) =
        (if k = 0 then [d, c] else [c, d]) ∧
      (RemoveOverlappingLocations ((c :: cs).take k ++ d :: (c :: cs).drop k)).length = 2 := by
  have hov : ∀ a ∈ cs, Overlaps a c = true := by
    intro a ha
    have h1 := (List.pairwise_cons.1 hnear).1 a ha
    simp [Overlaps, hcity a ha, h1]
  have hdc : Overlaps d c = false := overlaps_eq_false_of_city_ne d c hd
  have hcd : Overlaps c d = false := overlaps_eq_false_of_city_ne c d (Ne.symm hd)
  have hmain : RemoveOverlappingLocations ((c :: cs).take k ++ d :: (c :: cs).drop k) =
      (if k = 0 then [d, c] else [c, d]) := by
    cases k with
    | zero =>
      simp only [RemoveOverlappingLocations, List.take_zero, List.drop_zero, List.nil_append,
        removeLoop, scanUnique, hcd, if_true]
      simp only [Bool.false_eq_true, if_false, List.singleton_append]
      exact removeLoop_all_discarded cs [d, c]
        (fun a ha => ⟨c, by simp, hov a ha⟩)
    | succ n =>
      have hshape : (c :: cs).take (n + 1) ++ d :: (c :: cs).drop (n + 1) =
          [c] ++ (cs.take n ++ ([d] ++ cs.drop n)) := by simp
      rw [hshape, RemoveOverlappingLocations, removeLoop_append, removeLoop_append,
        removeLoop_append]
      have h1 : removeLoop [c] ([] : List (Location F)) = [c] := by
        simp [removeLoop, scanUnique]
      have h2 : removeLoop [d] [c] = [c, d] := by
        simp [removeLoop, scanUnique, hdc]
      rw [h1, removeLoop_all_discarded (cs.take n) [c]
        (fun a ha => ⟨c, by simp, hov a (List.mem_of_mem_take ha)⟩), h2,
        removeLoop_all_discarded (cs.drop n) [c, d]
        (fun a ha => ⟨c, by simp, hov a (List.mem_of_mem_drop ha)⟩)]
      simp
  refine ⟨hmain, ?_⟩
  rw [hmain]
  split <;> rfl

/-- C5 at the specification's input: three near-identical "Springfield" entries
with one "Portland" entry after the first of them give
`[springfieldA, portland]`. -/
theorem C5_cluster_and_distinct_entry_give_two_witness :
    (∀ a ∈ [springfieldB, springfieldC], a.City = springfieldA.City) ∧
      portland.City ≠ springfieldA.City ∧
      List.Pairwise
        (fun earlier later =>
          FloatArith.le (DistanceTo later earlier) (FloatArith.ofNat 10) = true)
        [springfieldA, springfieldB, springfieldC] ∧
      RemoveOverlappingLocations [springfieldA, portland, springfieldB, springfieldC] =
        [springfieldA, portland] ∧
      (RemoveOverlappingLocations
        [springfieldA, portland, springfieldB, springfieldC]).length = 2 :=
  have hcity : ∀ a ∈ [springfieldB, springfieldC], a.City = springfieldA.City := by
    intro a ha
    simp only [List.mem_cons, List.mem_singleton, List.not_mem_nil, or_false] at ha
    rcases ha with rfl | rfl <;> rfl
  have hd : portland.City ≠ springfieldA.City := by decide
  have hnear : List.Pairwise
      (fun earlier later =>
        FloatArith.le (DistanceTo later earlier) (FloatArith.ofNat 10) = true)
      [springfieldA, springfieldB, springfieldC] := by
    have hBA := overlaps_springfieldB_A
    have hCA := overlaps_springfieldC_A
    have hCB := overlaps_springfieldC_B
    simp only [Overlaps, Bool.and_eq_true] at hBA hCA hCB
    simp [hBA.2, hCA.2, hCB.2]
  ⟨hcity, hd, hnear,
    C5_cluster_and_distinct_entry_give_two springfieldA [springfieldB, springfieldC]
      portland 1 hcity hd hnear⟩

end Deduplicator

/-! ## Overlap and distance -/

section OverlapAndDistance

/-- C6. `a.Overlaps(b)` is true exactly when the city names are equal strings
and `a.DistanceTo(b) <= 10`: for every arithmetic, with the source's `<=`; and
over the reals, with the order of the reals.  Same name on one meridian: 0.045
degrees of latitude apart (about 5 km) overlap, 0.45 degrees apart (about
50 km) do not.  Names that differ only in case do not overlap, and a pair at
exactly 10 km does. -/
theorem C6_overlaps_iff_same_city_within_10km :
    (∀ (F : Type) [FloatArith F] (a b : Location F),
      Overlaps a b = true ↔
        a.City = b.City ∧
          FloatArith.le (DistanceTo a b) (FloatArith.ofNat 10 : F) = true) ∧
    (∀ a b : Location ℝ, Overlaps a b = true ↔ a.City = b.City ∧ DistanceTo a b ≤ 10) ∧
    Overlaps (onMeridian "Springfield" 0.045) (onMeridian "Springfield" 0) = true ∧
    Overlaps (onMeridian "Springfield" 0.45) (onMeridian "Springfield" 0) = false ∧
    Overlaps (onMeridian "Springfield" 0) (onMeridian "springfield" 0) = false ∧
    (DistanceTo (onMeridian "Springfield" tenKmInDegrees) (onMeridian "Springfield" 0) = 10 ∧
      Overlaps (onMeridian "Springfield" tenKmInDegrees) (onMeridian "Springfield" 0)
        = true) := by
  have hten : DistanceTo (onMeridian "Springfield" tenKmInDegrees)
      (onMeridian "Springfield" 0) = 10 := by
    rw [distanceTo_real_same_lon (onMeridian "Springfield" tenKmInDegrees)
      (onMeridian "Springfield" 0) rfl]
    have hpos : (0 : ℝ) < tenKmInDegrees := by
      unfold tenKmInDegrees
      positivity
    simp only [onMeridian, sub_zero, abs_of_pos hpos]
    unfold tenKmInDegrees
    field_simp
    ring
  refine ⟨?_, overlaps_real_iff, ?_, ?_, ?_, hten, ?_⟩
  · intro F _ a b
    simp [Overlaps]
  · apply overlaps_real_of_same_lon_near <;> norm_num [onMeridian, abs_le]
  · apply overlaps_real_of_same_lon_far <;> norm_num [onMeridian, le_abs]
  · exact overlaps_eq_false_of_city_ne _ _ (by decide)
  · rw [overlaps_real_iff]
    exact ⟨rfl, le_of_eq hten⟩

/-- C7. `Overlaps` does not read `State` or `Country`: replacing these fields
of both locations by arbitrary strings leaves the result unchanged.  So two
results named alike and about 1 km apart overlap although their states and
countries differ. -/
theorem C7_overlaps_ignores_state_and_country :
    (∀ (F : Type) [FloatArith F] (a b : Location F) (s1 c1 s2 c2 : String),
      Overlaps ⟨a.City, s1, c1, a.Lat, a.Lon⟩ ⟨b.City, s2, c2, b.Lat, b.Lon⟩ =
        Overlaps a b) ∧
    Overlaps (⟨"Springfield", "Ontario", "CA", 39.81, -89.64⟩ : Location ℝ)
      ⟨"Springfield", "Illinois", "US", 39.80, -89.64⟩ = true := by
  refine ⟨fun F _ a b s1 c1 s2 c2 => rfl, ?_⟩
  apply overlaps_real_of_same_lon_near <;> norm_num [abs_le]

/-- C8. Over the reals, `a.DistanceTo(b)` is
`6371 * sqrt(dLat^2 + (cos(meanLat) * dLon)^2)` with `dLat`, `dLon` and
`meanLat` the radians of the latitude difference, of the longitude difference
and of the mean latitude.  The cosine is the one of the mean latitude: between
the two poles, one degree of longitude apart, the value differs from what the
formula gives with the cosine of either endpoint's latitude. -/
theorem C8_distanceTo_is_equirectangular_formula :
    (∀ a b : Location ℝ,
      DistanceTo a b =
        6371 * Real.sqrt ((specToRadians (a.Lat - b.Lat)) ^ 2 +
          (Real.cos (specToRadians ((a.Lat + b.Lat) / 2)) *
            specToRadians (a.Lon - b.Lon)) ^ 2)) ∧
    (∀ d : ℝ, (Rad d : ℝ) = d * Real.pi / 180) ∧
    DistanceTo northPole southPole ≠
      specDistanceWithCosAt northPole.Lat northPole southPole ∧
    DistanceTo northPole southPole ≠
      specDistanceWithCosAt southPole.Lat northPole southPole := by
  have hpi := Real.pi_pos
  have hmean : DistanceTo northPole southPole =
      6371 * Real.sqrt (Real.pi ^ 2 + (Real.pi / 180) ^ 2) := by
    rw [distanceTo_real_eq_spec]
    simp only [specDistanceTo, specToRadians, northPole, southPole]
    norm_num
  have hend : ∀ lat : ℝ, Real.cos (specToRadians lat) = 0 →
      specDistanceWithCosAt lat northPole southPole = 6371 * Real.sqrt (Real.pi ^ 2) := by
    intro lat h
    simp only [specDistanceWithCosAt, h]
    simp only [specToRadians, northPole, southPole]
    norm_num
  have hne : (6371 : ℝ) * Real.sqrt (Real.pi ^ 2 + (Real.pi / 180) ^ 2) ≠
      6371 * Real.sqrt (Real.pi ^ 2) := by
    intro h
    have h1 : Real.sqrt (Real.pi ^ 2 + (Real.pi / 180) ^ 2) = Real.sqrt (Real.pi ^ 2) := by
      linarith
    have h2 := (Real.sqrt_inj (by positivity) (by positivity)).1 h1
    have h3 : 0 < (Real.pi / 180) ^ 2 := by positivity
    linarith
  have hn : Real.cos (specToRadians northPole.Lat) = 0 := by
    have : specToRadians northPole.Lat = Real.pi / 2 := by
      simp only [specToRadians, northPole]
      ring
    rw [this, Real.cos_pi_div_two]
  have hs : Real.cos (specToRadians southPole.Lat) = 0 := by
    have : specToRadians southPole.Lat = -(Real.pi / 2) := by
      simp only [specToRadians, southPole]
      ring
    rw [this, Real.cos_neg, Real.cos_pi_div_two]
  refine ⟨fun a b => distanceTo_real_eq_spec a b, ?_, ?_, ?_⟩
  · intro d
    simp [Rad, FloatArith.div, FloatArith.mul, FloatArith.pi, FloatArith.ofNat]
  · rw [hmean, hend _ hn]
    exact hne
  · rw [hmean, hend _ hs]
    exact hne

end OverlapAndDistance

/-! ## Order dependence and idempotence of the de-duplicator -/

section OrderAndIdempotence

/-- C18. `RemoveOverlappingLocations` is idempotent: applied to its own output
it returns that output. -/
theorem C18_removeOverlapping_idempotent {F : Type} [FloatArith F]
    (xs : List (Location F)) :
    RemoveOverlappingLocations (RemoveOverlappingLocations xs) =
      RemoveOverlappingLocations xs := by
  have hp := removeLoop_pairwise xs ([] : List (Location F)) List.Pairwise.nil
  have h := removeLoop_all_accepted (removeLoop xs []) ([] : List (Location F))
    (by simpa using hp)
  simpa [RemoveOverlappingLocations] using h

/-- C19. `Overlaps` is not transitive, and the output of
`RemoveOverlappingLocations` depends on the order of the input.  With `A`, `B`,
`C` named alike on longitude 0 at latitudes 0, 0.07 and 0.14 degrees: `A`
overlaps `B` and `B` overlaps `C` (both ways round), `C` does not overlap `A`;
the input `[A, B, C]` gives `[A, C]`, and its permutation `[B, A, C]` gives
`[B]`, of a different length. -/
theorem C19_removeOverlapping_depends_on_order :
    Overlaps meridianA meridianB = true ∧ Overlaps meridianB meridianA = true ∧
    Overlaps meridianB meridianC = true ∧ Overlaps meridianC meridianB = true ∧
    Overlaps meridianA meridianC = false ∧ Overlaps meridianC meridianA = false ∧
    RemoveOverlappingLocations [meridianA, meridianB, meridianC] = [meridianA, meridianC] ∧
    RemoveOverlappingLocations [meridianB, meridianA, meridianC] = [meridianB] ∧
    List.Perm [meridianA, meridianB, meridianC] [meridianB, meridianA, meridianC] ∧
    (RemoveOverlappingLocations [meridianA, meridianB, meridianC]).length ≠
      (RemoveOverlappingLocations [meridianB, meridianA, meridianC]).length := by
  have hAB : Overlaps meridianA meridianB = true := by
    apply overlaps_real_of_same_lon_near <;>
      norm_num [meridianA, meridianB, onMeridian, abs_le]
  have hBA : Overlaps meridianB meridianA = true := by
    apply overlaps_real_of_same_lon_near <;>
      norm_num [meridianA, meridianB, onMeridian, abs_le]
  have hBC : Overlaps meridianB meridianC = true := by
    apply overlaps_real_of_same_lon_near <;>
      norm_num [meridianB, meridianC, onMeridian, abs_le]
  have hCB : Overlaps meridianC meridianB = true := by
    apply overlaps_real_of_same_lon_near <;>
      norm_num [meridianB, meridianC, onMeridian, abs_le]
  have hAC : Overlaps meridianA meridianC = false := by
    apply overlaps_real_of_same_lon_far <;>
      norm_num [meridianA, meridianC, onMeridian, le_abs]
  have hCA : Overlaps meridianC meridianA = false := by
    apply overlaps_real_of_same_lon_far <;>
      norm_num [meridianA, meridianC, onMeridian, le_abs]
  have h1 : RemoveOverlappingLocations [meridianA, meridianB, meridianC] =
      [meridianA, meridianC] := by
    simp [RemoveOverlappingLocations, removeLoop, scanUnique, hBA, hCA]
  have h2 : RemoveOverlappingLocations [meridianB, meridianA, meridianC] = [meridianB] := by
    simp [RemoveOverlappingLocations, removeLoop, scanUnique, hAB, hCB]
  refine ⟨hAB, hBA, hBC, hCB, hAC, hCA, h1, h2, List.Perm.swap _ _ _, ?_⟩
  rw [h1, h2]
  decide

end OrderAndIdempotence

/-! ## The display name -/

section DisplayName

theorem utf8ByteSize_pos_iff (s : String) : 0 < s.utf8ByteSize ↔ s ≠ "" := by
  cases s with
  | mk l =>
    cases l with
    | nil => simp [String.utf8ByteSize, String.utf8ByteSize.go]
    | cons c cs =>
      have hc := Char.utf8Size_pos c
      have hne : (String.mk (c :: cs)) ≠ "" := by
        intro h
        have := congrArg String.length h
        simp at this
      simp only [String.utf8ByteSize, String.utf8ByteSize.go, ne_eq, hne, not_false_eq_true,
        iff_true]
      omega

/-- C14. `GetName(includeState)` is `City + ", " + State + ", " + Country` when
`includeState` is true and `State` is not the empty string, and
`City + ", " + Country` otherwise.  Paris without a state gives `"Paris, FR"`;
Portland in Oregon gives `"Portland, Oregon, US"`. -/
theorem C14_getName_format :
    (∀ (F : Type) (loc : Location F) (includeState : Bool),
      GetName loc includeState =
        if includeState = true ∧ loc.State ≠ "" then
          loc.City ++ ", " ++ loc.State ++ ", " ++ loc.Country
        else loc.City ++ ", " ++ loc.Country) ∧
    (∀ (F : Type) (lat lon : F),
      GetName (⟨"Paris", "", "FR", lat, lon⟩ : Location F) true = "Paris, FR") ∧
    (∀ (F : Type) (lat lon : F),
      GetName (⟨"Portland", "Oregon", "US", lat, lon⟩ : Location F) true =
        "Portland, Oregon, US") ∧
    (∀ (F : Type) (lat lon : F),
      GetName (⟨"Portland", "Oregon", "US", lat, lon⟩ : Location F) false =
        "Portland, US") := by
  refine ⟨?_, fun F lat lon => rfl, fun F lat lon => rfl, fun F lat lon => rfl⟩
  intro F loc includeState
  unfold GetName
  by_cases hs : loc.State = ""
  · have h0 : decide (loc.State.utf8ByteSize > 0) = false := by
      rw [decide_eq_false_iff_not]
      intro h
      exact (utf8ByteSize_pos_iff _).1 h hs
    rw [h0]
    simp [hs]
  · have h1 : decide (loc.State.utf8ByteSize > 0) = true := by
      rw [decide_eq_true_iff]
      exact (utf8ByteSize_pos_iff _).2 hs
    rw [h1]
    cases includeState <;> simp [hs]

end DisplayName

/-! ## The resolver -/

section ResolverFacts

variable {F : Type} [FloatArith F] {E Body : Type}

theorem findLocation_get_error (client : String → Except E Body)
    (decode : Body → List (Location F) × Option E) (keyOW locName : String) (n : Int) (e : E)
    (h : client (requestURL keyOW locName n) = Except.error e) :
    FindLocation client decode keyOW locName n = ([], some (GoError.external e)) := by
  simp [FindLocation, h]

theorem findLocation_get_ok (client : String → Except E Body)
    (decode : Body → List (Location F) × Option E) (keyOW locName : String) (n : Int)
    (body : Body) (h : client (requestURL keyOW locName n) = Except.ok body) :
    FindLocation client decode keyOW locName n = decodeAndFilter decode body := by
  simp [FindLocation, h]

theorem decodeAndFilter_error (decode : Body → List (Location F) × Option E) (body : Body)
    (ms : List (Location F)) (e : E) (h : decode body = (ms, some e)) :
    decodeAndFilter decode body = ([], some (GoError.external e)) := by
  simp [decodeAndFilter, h]

theorem decodeAndFilter_nil (decode : Body → List (Location F) × Option E) (body : Body)
    (h : decode body = ([], none)) :
    decodeAndFilter decode body = ([], some GoError.errLocationNotFound) := by
  simp [decodeAndFilter, h]

theorem decodeAndFilter_single (decode : Body → List (Location F) × Option E) (body : Body)
    (m : Location F) (h : decode body = ([m], none)) :
    decodeAndFilter decode body = ([m], none) := by
  simp [decodeAndFilter, h]

theorem decodeAndFilter_many (decode : Body → List (Location F) × Option E) (body : Body)
    (m1 m2 : Location F) (rest : List (Location F))
    (h : decode body = (m1 :: m2 :: rest, none)) :
    decodeAndFilter decode body = (RemoveOverlappingLocations (m1 :: m2 :: rest), none) := by
  simp [decodeAndFilter, h]

/-- The first candidate is always accepted and stays first. -/
theorem removeOverlapping_cons (x : Location F) (xs : List (Location F)) :
    ∃ t, RemoveOverlappingLocations (x :: xs) = x :: t := by
  obtain ⟨t, ht, -⟩ := removeLoop_extends xs [x]
  exact ⟨t, by simpa [RemoveOverlappingLocations, removeLoop, scanUnique] using ht⟩

end ResolverFacts

section Resolver

/-- C11. When the request succeeds and the body decodes without error to `ms`:
with exactly one record `FindLocation` returns `ms` itself, with more than one
it returns `RemoveOverlappingLocations ms`; the error is `nil` in both
cases. -/
theorem C11_findLocation_one_or_deduplicated {F : Type} [FloatArith F] {E Body : Type}
    (client : String → Except E Body) (decode : Body → List (Location F) × Option E)
    (keyOW locName : String) (maxRespLocs : Int) (body : Body) (ms : List (Location F))
    (hget : client (requestURL keyOW locName maxRespLocs) = Except.ok body)
    (hdec : decode body = (ms, none)) :
    (ms.length = 1 → FindLocation client decode keyOW locName maxRespLocs = (ms, none)) ∧
    (ms.length > 1 →
      FindLocation client decode keyOW locName maxRespLocs =
        (RemoveOverlappingLocations ms, none)) := by
  rw [findLocation_get_ok client decode keyOW locName maxRespLocs body hget]
  constructor
  · intro h
    match ms, h, hdec with
    | [m], _, hdec => exact decodeAndFilter_single decode body m hdec
  · intro h
    match ms, h, hdec with
    | m1 :: m2 :: rest, _, hdec => exact decodeAndFilter_many decode body m1 m2 rest hdec

/-- C11 at concrete inputs: a response with the two Springfield entries comes
back de-duplicated to one. -/
theorem C11_findLocation_one_or_deduplicated_witness :
    respondingClient "body" (requestURL "key" "Springfield" 5) = Except.ok "body" ∧
    decodesTo [springfieldA, springfieldB] "body" = ([springfieldA, springfieldB], none) ∧
    [springfieldA, springfieldB].length > 1 ∧
    FindLocation (respondingClient "body") (decodesTo [springfieldA, springfieldB])
      "key" "Springfield" 5 =
        (RemoveOverlappingLocations [springfieldA, springfieldB], none) :=
  ⟨rfl, rfl, by decide,
    (C11_findLocation_one_or_deduplicated (respondingClient "body")
      (decodesTo [springfieldA, springfieldB]) "key" "Springfield" 5 "body"
      [springfieldA, springfieldB] rfl rfl).2 (by decide)⟩

/-- C12. When the request succeeds and the body decodes without error to zero
records, `FindLocation` returns no locations and `errLocationNotFound`; it
returns `errLocationNotFound` in no other case; and `errLocationNotFound` is
none of the errors of the client or of the decoder. -/
theorem C12_findLocation_not_found_sentinel {F : Type} [FloatArith F] {E Body : Type}
    (client : String → Except E Body) (decode : Body → List (Location F) × Option E)
    (keyOW locName : String) (maxRespLocs : Int) :
    ((∃ body, client (requestURL keyOW locName maxRespLocs) = Except.ok body ∧
        decode body = ([], none)) →
      FindLocation client decode keyOW locName maxRespLocs =
        ([], some GoError.errLocationNotFound)) ∧
    ((FindLocation client decode keyOW locName maxRespLocs).2 =
        some GoError.errLocationNotFound →
      ∃ body, client (requestURL keyOW locName maxRespLocs) = Except.ok body ∧
        decode body = ([], none)) ∧
    (∀ e : E, GoError.external e ≠ (GoError.errLocationNotFound : GoError E)) := by
  refine ⟨?_, ?_, fun e h => by cases h⟩
  · rintro ⟨body, hget, hdec⟩
    rw [findLocation_get_ok client decode keyOW locName maxRespLocs body hget]
    exact decodeAndFilter_nil decode body hdec
  · intro h
    cases hget : client (requestURL keyOW locName maxRespLocs) with
    | error e =>
      rw [findLocation_get_error client decode keyOW locName maxRespLocs e hget] at h
      simp at h
    | ok body =>
      rw [findLocation_get_ok client decode keyOW locName maxRespLocs body hget] at h
      refine ⟨body, rfl, ?_⟩
      rcases hdec : decode body with ⟨ms, err⟩
      cases err with
      | some e =>
        rw [decodeAndFilter_error decode body ms e hdec] at h
        simp at h
      | none =>
        match ms, hdec with
        | [], _ => rfl
        | [m], hdec =>
          rw [decodeAndFilter_single decode body m hdec] at h
          simp at h
        | m1 :: m2 :: rest, hdec =>
          rw [decodeAndFilter_many decode body m1 m2 rest hdec] at h
          simp at h

/-- C12 at concrete inputs: a response that decodes to no record. -/
theorem C12_findLocation_not_found_sentinel_witness :
    (∃ body, respondingClient "[]" (requestURL "key" "Nowhere" 5) = Except.ok body ∧
      decodesTo ([] : List (Location ℝ)) body = ([], none)) ∧
    FindLocation (respondingClient "[]") (decodesTo ([] : List (Location ℝ)))
      "key" "Nowhere" 5 = ([], some GoError.errLocationNotFound) :=
  have h : ∃ body, respondingClient "[]" (requestURL "key" "Nowhere" 5) = Except.ok body ∧
      decodesTo ([] : List (Location ℝ)) body = ([], none) := ⟨"[]", rfl, rfl⟩
  ⟨h, (C12_findLocation_not_found_sentinel (respondingClient "[]")
    (decodesTo ([] : List (Location ℝ))) "key" "Nowhere" 5).1 h⟩

/-- C13. For `maxRespLocs <= 0`, `FindLocation` passes to `client.Get` the URL
with `limit=10`: its result is the failure of the client on that URL, or what
the rest of the function makes of the client's answer to that URL; and it is
the result of the call with `maxRespLocs = 10`.  For `maxRespLocs > 0` the same
holds with the URL whose limit is `maxRespLocs` itself, printed in decimal. -/
theorem C13_findLocation_default_limit {F : Type} [FloatArith F] {E Body : Type}
    (decode : Body → List (Location F) × Option E)
    (keyOW locName : String) (maxRespLocs : Int) :
    (maxRespLocs ≤ 0 →
      ∀ client : String → Except E Body,
        FindLocation client decode keyOW locName maxRespLocs =
            (match client ("https://api.openweathermap.org/geo/1.0/direct?q=" ++ locName ++
                "&limit=10&appid=" ++ keyOW) with
              | Except.error e => ([], some (GoError.external e))
              | Except.ok body => decodeAndFilter decode body) ∧
          FindLocation client decode keyOW locName maxRespLocs =
            FindLocation client decode keyOW locName 10) ∧
    (0 < maxRespLocs →
      ∀ client : String → Except E Body,
        FindLocation client decode keyOW locName maxRespLocs =
          (match client ("https://api.openweathermap.org/geo/1.0/direct?q=" ++ locName ++
              "&limit=" ++ toString maxRespLocs ++ "&appid=" ++ keyOW) with
            | Except.error e => ([], some (GoError.external e))
            | Except.ok body => decodeAndFilter decode body)) := by
  have hten : ∀ k : String, "&limit=" ++ (toString (10 : Int) ++ ("&appid=" ++ k)) =
      "&limit=10&appid=" ++ k := by
    intro k
    rw [← String.append_assoc, ← String.append_assoc]
    rfl
  have h10 : effectiveMaxRespLocs 10 = 10 := by decide
  have hlit : requestURL keyOW locName 10 =
      "https://api.openweathermap.org/geo/1.0/direct?q=" ++ locName ++
        "&limit=10&appid=" ++ keyOW := by
    simp only [requestURL, h10, String.append_assoc, hten]
  refine ⟨?_, ?_⟩
  · intro h client
    have hurl : requestURL keyOW locName maxRespLocs = requestURL keyOW locName 10 := by
      simp [requestURL, effectiveMaxRespLocs, h, DEFAULT_MAX_RESP_LOCS]
    refine ⟨?_, ?_⟩
    · rw [← hlit, ← hurl]
      rfl
    · simp only [FindLocation, hurl]
  · intro h client
    have hn : effectiveMaxRespLocs maxRespLocs = maxRespLocs := by
      simp [effectiveMaxRespLocs, not_le.2 h]
    have hurl : requestURL keyOW locName maxRespLocs =
        "https://api.openweathermap.org/geo/1.0/direct?q=" ++ locName ++
          "&limit=" ++ toString maxRespLocs ++ "&appid=" ++ keyOW := by
      simp only [requestURL, hn]
    rw [← hurl]
    rfl

/-- C13 at concrete inputs, with clients that answer one URL only.  With
`maxRespLocs = 0` and with `maxRespLocs = -3` the call succeeds against the
client that knows the `limit=10` URL, and with `maxRespLocs = 0` it fails
against the client that knows the `limit=0` URL; with `maxRespLocs = 5` it
succeeds against the client that knows the `limit=5` URL. -/
theorem C13_findLocation_default_limit_witness :
    ((0 : Int) ≤ 0 ∧
      FindLocation
        (clientAt "https://api.openweathermap.org/geo/1.0/direct?q=Warsaw&limit=10&appid=key"
          "body")
        (decodesTo [springfieldA]) "key" "Warsaw" 0 = ([springfieldA], none)) ∧
    ((-3 : Int) ≤ 0 ∧
      FindLocation
        (clientAt "https://api.openweathermap.org/geo/1.0/direct?q=Warsaw&limit=10&appid=key"
          "body")
        (decodesTo [springfieldA]) "key" "Warsaw" (-3) = ([springfieldA], none)) ∧
    ((0 : Int) ≤ 0 ∧
      FindLocation
        (clientAt "https://api.openweathermap.org/geo/1.0/direct?q=Warsaw&limit=0&appid=key"
          "body")
        (decodesTo [springfieldA]) "key" "Warsaw" 0 =
          ([], some (GoError.external "unexpected URL"))) ∧
    ((0 : Int) < 5 ∧
      FindLocation
        (clientAt "https://api.openweathermap.org/geo/1.0/direct?q=Warsaw&limit=5&appid=key"
          "body")
        (decodesTo [springfieldA]) "key" "Warsaw" 5 = ([springfieldA], none)) :=
  ⟨⟨by decide,
      (((C13_findLocation_default_limit (decodesTo [springfieldA]) "key" "Warsaw" 0).1
        (by decide)
        (clientAt "https://api.openweathermap.org/geo/1.0/direct?q=Warsaw&limit=10&appid=key"
          "body")).1).trans rfl⟩,
    ⟨by decide,
      (((C13_findLocation_default_limit (decodesTo [springfieldA]) "key" "Warsaw" (-3)).1
        (by decide)
        (clientAt "https://api.openweathermap.org/geo/1.0/direct?q=Warsaw&limit=10&appid=key"
          "body")).1).trans rfl⟩,
    ⟨by decide,
      (((C13_findLocation_default_limit (decodesTo [springfieldA]) "key" "Warsaw" 0).1
        (by decide)
        (clientAt "https://api.openweathermap.org/geo/1.0/direct?q=Warsaw&limit=0&appid=key"
          "body")).1).trans rfl⟩,
    ⟨by decide,
      ((C13_findLocation_default_limit (decodesTo [springfieldA]) "key" "Warsaw" 5).2
        (by decide)
        (clientAt "https://api.openweathermap.org/geo/1.0/direct?q=Warsaw&limit=5&appid=key"
          "body")).trans rfl⟩⟩

/-- C15. When the request fails with error `e`, `FindLocation` returns no
locations and `e` itself, whatever the decoder is; when the decoder fails with
error `e`, it returns no locations and `e` itself, whatever the decoder left in
`matches`; and whenever the returned error is not `nil`, the returned list is
`nil`. -/
theorem C15_findLocation_failures_unchanged {F : Type} [FloatArith F] {E Body : Type}
    (client : String → Except E Body) (decode : Body → List (Location F) × Option E)
    (keyOW locName : String) (maxRespLocs : Int) :
    (∀ e : E, client (requestURL keyOW locName maxRespLocs) = Except.error e →
      ∀ decode2 : Body → List (Location F) × Option E,
        FindLocation client decode2 keyOW locName maxRespLocs =
          ([], some (GoError.external e))) ∧
    (∀ (body : Body) (ms : List (Location F)) (e : E),
      client (requestURL keyOW locName maxRespLocs) = Except.ok body →
      decode body = (ms, some e) →
        FindLocation client decode keyOW locName maxRespLocs =
          ([], some (GoError.external e))) ∧
    ((FindLocation client decode keyOW locName maxRespLocs).2 ≠ none →
      (FindLocation client decode keyOW locName maxRespLocs).1 = []) := by
  refine ⟨?_, ?_, ?_⟩
  · intro e h decode2
    exact findLocation_get_error client decode2 keyOW locName maxRespLocs e h
  · intro body ms e hget hdec
    rw [findLocation_get_ok client decode keyOW locName maxRespLocs body hget]
    exact decodeAndFilter_error decode body ms e hdec
  · intro h
    cases hget : client (requestURL keyOW locName maxRespLocs) with
    | error e =>
      rw [findLocation_get_error client decode keyOW locName maxRespLocs e hget]
    | ok body =>
      rw [findLocation_get_ok client decode keyOW locName maxRespLocs body hget] at h ⊢
      rcases hdec : decode body with ⟨ms, err⟩
      cases err with
      | some e => rw [decodeAndFilter_error decode body ms e hdec]
      | none =>
        match ms, hdec with
        | [], hdec => rw [decodeAndFilter_nil decode body hdec]
        | [m], hdec =>
          rw [decodeAndFilter_single decode body m hdec] at h
          simp at h
        | m1 :: m2 :: rest, hdec =>
          rw [decodeAndFilter_many decode body m1 m2 rest hdec] at h
          simp at h

/-- C15 at concrete inputs: a request that times out, and a body whose decoding
fails after one record was filled in. -/
theorem C15_findLocation_failures_unchanged_witness :
    (failingClient "timeout" (requestURL "key" "Warsaw" 5) = Except.error "timeout" ∧
      FindLocation (failingClient "timeout") (decodesTo [springfieldA]) "key" "Warsaw" 5 =
        ([], some (GoError.external "timeout"))) ∧
    (respondingClient "[" (requestURL "key" "Warsaw" 5) = Except.ok "[" ∧
      decodeFails [springfieldA] "unexpected EOF" "[" =
        ([springfieldA], some "unexpected EOF") ∧
      FindLocation (respondingClient "[") (decodeFails [springfieldA] "unexpected EOF")
        "key" "Warsaw" 5 = ([], some (GoError.external "unexpected EOF"))) :=
  ⟨⟨rfl,
      (C15_findLocation_failures_unchanged (failingClient "timeout")
        (decodesTo [springfieldA]) "key" "Warsaw" 5).1 "timeout" rfl
        (decodesTo [springfieldA])⟩,
    ⟨rfl, rfl,
      (C15_findLocation_failures_unchanged (respondingClient "[")
        (decodeFails [springfieldA] "unexpected EOF") "key" "Warsaw" 5).2.1
        "[" [springfieldA] "unexpected EOF" rfl rfl⟩⟩

/-- C20. Whenever `FindLocation` returns a `nil` error, the request succeeded,
the body decoded without error to some `ms`, the returned list is not empty,
and its first location is the first record of `ms`.
`RemoveOverlappingLocations` maps a list that starts with `x` to a list that
starts with `x`. -/
theorem C20_findLocation_success_is_nonempty {F : Type} [FloatArith F] {E Body : Type}
    (client : String → Except E Body) (decode : Body → List (Location F) × Option E)
    (keyOW locName : String) (maxRespLocs : Int)
    (hok : (FindLocation client decode keyOW locName maxRespLocs).2 = none) :
    (∃ (body : Body) (ms : List (Location F)),
      client (requestURL keyOW locName maxRespLocs) = Except.ok body ∧
      decode body = (ms, none) ∧
      (FindLocation client decode keyOW locName maxRespLocs).1 ≠ [] ∧
      1 ≤ (FindLocation client decode keyOW locName maxRespLocs).1.length ∧
      (FindLocation client decode keyOW locName maxRespLocs).1.head? = ms.head?) ∧
    (∀ (x : Location F) (xs : List (Location F)),
      ∃ t, RemoveOverlappingLocations (x :: xs) = x :: t) := by
  refine ⟨?_, removeOverlapping_cons⟩
  cases hget : client (requestURL keyOW locName maxRespLocs) with
  | error e =>
    rw [findLocation_get_error client decode keyOW locName maxRespLocs e hget] at hok
    simp at hok
  | ok body =>
    rw [findLocation_get_ok client decode keyOW locName maxRespLocs body hget] at hok ⊢
    rcases hdec : decode body with ⟨ms, err⟩
    cases err with
    | some e =>
      rw [decodeAndFilter_error decode body ms e hdec] at hok
      simp at hok
    | none =>
      refine ⟨body, ms, rfl, hdec, ?_⟩
      match ms, hdec with
      | [], hdec =>
        rw [decodeAndFilter_nil decode body hdec] at hok
        simp at hok
      | [m], hdec =>
        rw [decodeAndFilter_single decode body m hdec]
        simp
      | m1 :: m2 :: rest, hdec =>
        rw [decodeAndFilter_many decode body m1 m2 rest hdec]
        obtain ⟨t, ht⟩ := removeOverlapping_cons m1 (m2 :: rest)
        simp [ht]

/-- C20 at concrete inputs: a response with `portland` and the two Springfield
entries succeeds and starts with `portland`. -/
theorem C20_findLocation_success_is_nonempty_witness :
    (FindLocation (respondingClient "body")
        (decodesTo [portland, springfieldA, springfieldB]) "key" "Portland" 0).2 = none ∧
    ∃ (body : String) (ms : List (Location ℝ)),
      respondingClient "body" (requestURL "key" "Portland" 0) = Except.ok body ∧
      decodesTo [portland, springfieldA, springfieldB] body = (ms, none) ∧
      (FindLocation (respondingClient "body")
        (decodesTo [portland, springfieldA, springfieldB]) "key" "Portland" 0).1 ≠ [] ∧
      1 ≤ (FindLocation (respondingClient "body")
        (decodesTo [portland, springfieldA, springfieldB]) "key" "Portland" 0).1.length ∧
      (FindLocation (respondingClient "body")
        (decodesTo [portland, springfieldA, springfieldB]) "key" "Portland" 0).1.head? =
          ms.head? :=
  have h : (FindLocation (respondingClient "body")
      (decodesTo [portland, springfieldA, springfieldB]) "key" "Portland" 0).2 = none := rfl
  ⟨h, (C20_findLocation_success_is_nonempty (respondingClient "body")
    (decodesTo [portland, springfieldA, springfieldB]) "key" "Portland" 0 h).1⟩

end Resolver

/-! ## The settings store -/

section SettingsFacts

variable {F W E H : Type}

/-- The directory step of `SaveSettings`: `os.Mkdir` when `os.Stat` reports
that the directory does not exist, nothing otherwise. -/
theorem saveSettings_of_mkdir_error (sys : System F W E H) (s : Option (Settings F)) (w w1 : W)
    (e e0 : E) (hstat : sys.Stat SETTINGS_DIR w = some e0) (hmiss : sys.IsNotExist e0 = true)
    (hmk : sys.Mkdir SETTINGS_DIR 0o644 w = (some e, w1)) :
    SaveSettings sys s w = (some e, w1) := by
  simp [SaveSettings, hstat, hmiss, hmk]

/-- With the directory in place, an error of `json.MarshalIndent` is
returned. -/
theorem saveSettings_of_marshal_error (sys : System F W E H) (s : Settings F) (w : W) (e : E)
    (hstat : sys.Stat SETTINGS_DIR w = none)
    (hm : sys.MarshalIndent s "" "    " = Except.error e) :
    SaveSettings sys (some s) w = (some e, w) := by
  simp [SaveSettings, hstat, hm]

/-- With the directory in place and the record serialised, an error of
`os.OpenFile` is returned. -/
theorem saveSettings_of_open_error (sys : System F W E H) (s : Settings F) (w w2 : W) (e : E)
    (stream : String) (hstat : sys.Stat SETTINGS_DIR w = none)
    (hm : sys.MarshalIndent s "" "    " = Except.ok stream)
    (ho : sys.OpenFile SETTINGS_FILE sys.createTruncWrite 0o644 w = (Except.error e, w2)) :
    SaveSettings sys (some s) w = (some e, w2) := by
  simp [SaveSettings, hstat, hm, ho]

/-- With the directory in place, the record serialised and the file open,
`SaveSettings` returns `nil` whatever `f.Write` and `f.Close` return. -/
theorem saveSettings_of_open_ok (sys : System F W E H) (s : Settings F) (w w2 : W) (f : H)
    (stream : String) (hstat : sys.Stat SETTINGS_DIR w = none)
    (hm : sys.MarshalIndent s "" "    " = Except.ok stream)
    (ho : sys.OpenFile SETTINGS_FILE sys.createTruncWrite 0o644 w = (Except.ok f, w2)) :
    SaveSettings sys (some s) w = (none, (sys.Close f (sys.Write f stream w2).2).2) := by
  simp [SaveSettings, hstat, hm, ho]

end SettingsFacts

section SettingsStore

/-- C16, at an input where the code departs from it.  On `fullDisk` the
directory exists, the record is serialised and the file is opened; `f.Write`
then fails with `noSpace`, and `SaveSettings` returns `nil`, leaving the file
created and empty. -/
theorem C16_saveSettings_drops_write_error :
    diskSystem.Stat SETTINGS_DIR fullDisk = none ∧
    (∃ stream w2,
      diskSystem.MarshalIndent ⟨"", "", none⟩ "" "    " = Except.ok stream ∧
      diskSystem.OpenFile SETTINGS_FILE diskSystem.createTruncWrite 0o644 fullDisk =
        (Except.ok (), w2) ∧
      (diskSystem.Write () stream w2).1.2 = some DiskError.noSpace) ∧
    (SaveSettings diskSystem none fullDisk).1 = none ∧
    (SaveSettings diskSystem none fullDisk).2 = ⟨true, some "", true, false⟩ := by
  refine ⟨rfl, ⟨_, _, rfl, rfl, rfl⟩, rfl, rfl⟩

/-- C17. When `os.ReadFile` fails with an error that is `os.ErrNotExist`,
`LoadSettings` calls `SaveSettings(nil)`, returns no settings and exactly the
error of that call, and leaves the file system as that call left it.
`SaveSettings(nil)` saves the record with both keys empty and no default
location.  When `os.ReadFile` fails with any other error, `LoadSettings`
returns no settings and that error, and the file system is unchanged. -/
theorem C17_loadSettings_missing_file {F W E H : Type} (sys : System F W E H) (w : W) :
    (∀ e : E, sys.ReadFile SETTINGS_FILE w = Except.error e → sys.IsErrNotExist e = true →
      LoadSettings sys w = (none, (SaveSettings sys none w).1, (SaveSettings sys none w).2) ∧
      ((SaveSettings sys none w).1 = none → (LoadSettings sys w).2.1 = none)) ∧
    SaveSettings sys none w = SaveSettings sys (some ⟨"", "", none⟩) w ∧
    (∀ e : E, sys.ReadFile SETTINGS_FILE w = Except.error e → sys.IsErrNotExist e = false →
      LoadSettings sys w = (none, some e, w)) := by
  refine ⟨?_, rfl, ?_⟩
  · intro e hr hne
    have h : LoadSettings sys w =
        (none, (SaveSettings sys none w).1, (SaveSettings sys none w).2) := by
      simp [LoadSettings, hr, hne]
    refine ⟨h, fun hs => ?_⟩
    rw [h]
    exact hs
  · intro e hr hne
    simp [LoadSettings, hr, hne]

/-- C17 at concrete inputs: on `freshDisk` the first load makes the directory
and the file with the empty record and returns no error; on `lockedDisk` the
load returns the permission error and changes nothing. -/
theorem C17_loadSettings_missing_file_witness :
    (diskSystem.ReadFile SETTINGS_FILE freshDisk = Except.error DiskError.notExist ∧
      diskSystem.IsErrNotExist DiskError.notExist = true ∧
      LoadSettings diskSystem freshDisk =
        (none, (SaveSettings diskSystem none freshDisk).1,
          (SaveSettings diskSystem none freshDisk).2) ∧
      SaveSettings diskSystem none freshDisk =
        (none, ⟨true, some "open_weather_key= open_uv_key= default_location=null",
          false, false⟩)) ∧
    (diskSystem.ReadFile SETTINGS_FILE lockedDisk = Except.error DiskError.permission ∧
      diskSystem.IsErrNotExist DiskError.permission = false ∧
      LoadSettings diskSystem lockedDisk = (none, some DiskError.permission, lockedDisk)) :=
  ⟨⟨rfl, rfl,
      ((C17_loadSettings_missing_file diskSystem freshDisk).1 DiskError.notExist rfl rfl).1,
      rfl⟩,
    ⟨rfl, rfl,
      (C17_loadSettings_missing_file diskSystem lockedDisk).2.2 DiskError.permission rfl rfl⟩⟩

end SettingsStore

end Geoloc
